import Mathlib

/-!
Verification of the proposal-lifecycle slice of a conference CfP platform.

The speaker-facing submission flow is embedded from
`src/server/src/speaker/talks.controller.ts` (`submitTalk`, `unsubmitTalk`).
The relational store is modelled as explicit state (`Db`), and each repository
call of the controller becomes a pure lookup or update on that state, following
the store contract of the design document (single-row keyed operations and
equality-filtered lookups).
-/

namespace ConferenceHall

/-- A user row: internal numeric `id` and external identity `uid`.
Talk speakers are user records (the controller reads `speaker.uid` and
`speaker.id` from them). -/
structure User where
  id : Nat
  uid : String
deriving DecidableEq, Repr

/-- A talk row with its content fields and its speaker set
(`getTalk(talkId, { withSpeakers: true })`). -/
structure Talk where
  id : Nat
  title : String
  abstract : String
  level : Option String
  language : Option String
  references : Option String
  speakers : List User
deriving DecidableEq, Repr

/-- Event type: fixed-window conferences vs. always-open meetups (§4.2). -/
inductive EventType
  | CONFERENCE
  | MEETUP
deriving DecidableEq, Repr

/-- An event row: CFP window data, requirement flags and the optional
`maxProposals` cap (a nullable numeric column; `none` models null/undefined). -/
structure Event where
  id : Nat
  type : EventType
  cfpStart : Option Nat
  cfpEnd : Option Nat
  formatsRequired : Bool
  categoriesRequired : Bool
  maxProposals : Option Nat
deriving DecidableEq, Repr

/-- A proposal row: the event-scoped snapshot of a talk, with its own copies of
the content fields and its own association lists (speakers, formats,
categories) held as id lists. -/
structure Proposal where
  id : Nat
  talkId : Nat
  eventId : Nat
  title : String
  abstract : String
  level : Option String
  language : Option String
  references : Option String
  comments : Option String
  speakerIds : List Nat
  formatIds : List Nat
  categoryIds : List Nat
deriving DecidableEq, Repr

/-- The relational store as explicit state. `nextProposalId` models the
auto-increment key of the proposal table. -/
structure Db where
  users : List User
  talks : List Talk
  events : List Event
  proposals : List Proposal
  nextProposalId : Nat
deriving DecidableEq, Repr

/-- An HTTP error as thrown by the controller (`HttpException(status, message)`). -/
structure HttpException where
  status : Nat
  message : String
deriving DecidableEq, Repr

/-- Embedding of `usersRepository.getUserByUid`. Modelled from the spec: the identity
resolver maps an external uid to a User record or absence (a single-row keyed
lookup; the repository file is not part of the included sources). -/
def getUserByUid (db : Db) (uid : String) : Option User :=
  db.users.find? (fun u => u.uid == uid)

/-- Embedding of `talksRepository.getTalk(talkId, ( withSpeakers: true ))`. Modelled from
the spec: single-row keyed lookup of a talk together with its speakers. -/
def getTalk (db : Db) (talkId : Nat) : Option Talk :=
  db.talks.find? (fun t => t.id == talkId)

/-- Embedding of `eventRepository.getEventById`. Modelled from the spec: single-row keyed
lookup of an event. -/
def getEventById (db : Db) (eventId : Nat) : Option Event :=
  db.events.find? (fun e => e.id == eventId)

/-- Embedding of `proposalRepository.findUserProposalsForEvent(eventId, userId)`. Modelled
from the spec: equality-filtered lookup of the proposals of the user for the
event (step 5 of the reconciliation algorithm: "among the user proposals for
that event"); a proposal belongs to the user when the user is among its
speakers. -/
def findUserProposalsForEvent (db : Db) (eventId userId : Nat) : List Proposal :=
  db.proposals.filter (fun p => p.eventId == eventId && p.speakerIds.contains userId)

/-- Embedding of `proposalRepository.getProposalForEvent(talkId, eventId)`. Modelled from
the spec: locate the single proposal for (talkId, eventId). -/
def getProposalForEvent (db : Db) (talkId eventId : Nat) : Option Proposal :=
  db.proposals.find? (fun p => p.talkId == talkId && p.eventId == eventId)

/-- Modelled from the spec: `isCfpOpened(eventType, cfpStart, cfpEnd)` from
`src/common/cfp-dates` is not part of the included sources. §4.2: fixed-date
conferences require `now` within `[cfpStart, cfpEnd]`; types without a fixed
window (meetups) are treated as permanently open. `now` is passed explicitly. -/
def isCfpOpened (type : EventType) (cfpStart cfpEnd : Option Nat) (now : Nat) : Bool :=
  match type with
  | .MEETUP => true
  | .CONFERENCE =>
    match cfpStart, cfpEnd with
    | some s, some e => decide (s ≤ now) && decide (now ≤ e)
    | _, _ => false

/-- lodash `isEmpty` restricted to the optional id-list payloads used by the
controller: true on null/undefined and on an empty array. -/
def isEmptyIds : Option (List Nat) → Bool
  | none => true
  | some l => l.isEmpty

/-- The request body of `submitTalk`/`PUT submit`: optional comments and
optional format/category id arrays (`none` models an absent field). -/
structure SubmitBody where
  comments : Option String
  formats : Option (List Nat)
  categories : Option (List Nat)
deriving DecidableEq, Repr

/-- The association ids actually connected by the controller: the guard
`body?.formats && body.formats.length > 0` leaves the local variable
undefined for an absent or empty array, and `connect: undefined` connects
nothing; otherwise `filter(Boolean)` drops falsy (zero) ids. Combined with
`set: []` on update, the resulting association list is exactly this value. -/
def submittedIds : Option (List Nat) → List Nat
  | none => []
  | some l => if 0 < l.length then l.filter (fun i => i != 0) else []

/-- The update payload of the existing-proposal branch of `submitTalk`
(talks.controller.ts lines 166-185): content fields overwritten from the
current talk, comments from the body, and each association list replaced
wholesale (`set: []` then `connect`). -/
def proposalUpdate (talk : Talk) (body : SubmitBody) (p : Proposal) : Proposal :=
  { p with
    title := talk.title
    abstract := talk.abstract
    level := talk.level
    language := talk.language
    references := talk.references
    comments := body.comments
    speakerIds := talk.speakers.map (fun s => s.id)
    formatIds := submittedIds body.formats
    categoryIds := submittedIds body.categories }

/-- Embedding of `proposalRepository.updateProposal(id, data)`. Modelled from the spec:
single-row keyed update of the proposal with the given id. -/
def updateProposal (db : Db) (pid : Nat) (talk : Talk) (body : SubmitBody) : Db :=
  { db with
    proposals := db.proposals.map (fun q => if q.id == pid then proposalUpdate talk body q else q) }

/-- The row inserted by the create branch of `submitTalk` (talks.controller.ts
lines 189-205): a content snapshot of the talk plus the supplied
comments/formats/categories, under a fresh id. -/
def newProposal (db : Db) (talkId eventId : Nat) (talk : Talk) (body : SubmitBody) : Proposal :=
  { id := db.nextProposalId
    talkId := talkId
    eventId := eventId
    title := talk.title
    abstract := talk.abstract
    level := talk.level
    language := talk.language
    references := talk.references
    comments := body.comments
    speakerIds := talk.speakers.map (fun s => s.id)
    formatIds := submittedIds body.formats
    categoryIds := submittedIds body.categories }

/-- Embedding of `proposalRepository.createProposal(talkId, eventId, data)`. Modelled from
the spec: insert a new proposal row under a fresh auto-increment id. -/
def createProposal (db : Db) (talkId eventId : Nat) (talk : Talk) (body : SubmitBody) : Db :=
  { db with
    proposals := db.proposals ++ [newProposal db talkId eventId talk body]
    nextProposalId := db.nextProposalId + 1 }

/-- Embedding of `proposalRepository.deleteProposal(id)`. Modelled from the spec:
single-row keyed hard delete. -/
def deleteProposal (db : Db) (pid : Nat) : Db :=
  { db with proposals := db.proposals.filter (fun q => q.id != pid) }

/-- The cap guard of talks.controller.ts line 186:
`!!event.maxProposals && proposals.length === event.maxProposals`.
A null/undefined or zero cap is falsy, and the count comparison is strict
equality. -/
def maxReached (event : Event) (proposals : List Proposal) : Bool :=
  match event.maxProposals with
  | none => false
  | some m => m != 0 && proposals.length == m

/-- Which mutation branch a successful submit took. -/
inductive SubmitBranch
  | created
  | updated
deriving DecidableEq, Repr

/-- Result of `submitTalk`: an HTTP error, or the branch taken together with
the resulting store. -/
abbrev SubmitResult := Except HttpException (SubmitBranch × Db)

/-- The branch of a successful submit, if any. -/
def SubmitResult.branch? : SubmitResult → Option SubmitBranch
  | .ok (b, _) => some b
  | .error _ => none

/-- The resulting store of a successful submit, if any. -/
def SubmitResult.db? : SubmitResult → Option Db
  | .ok (_, db) => some db
  | .error _ => none

/-- The HTTP error of a failed submit, if any. -/
def SubmitResult.err? : SubmitResult → Option HttpException
  | .ok _ => none
  | .error e => some e

/-- Embedding of `submitTalk` (talks.controller.ts lines 121-209) as a pure
function of the request parameters, the current time and the store. Checks run
in source order: requester, talk, speaker membership, event, CFP window,
required formats, required categories; then the proposals of the user for the event
are fetched and the one matching the talk (if any) selects the update branch,
otherwise the cap guard runs before a create. Errors mutate nothing. -/
def submitTalk (uid : String) (talkId eventId : Nat) (body : SubmitBody) (now : Nat)
    (db : Db) : SubmitResult :=
  match getUserByUid db uid with
  | none => .error ⟨404, "User not found"⟩
  | some user =>
  match getTalk db talkId with
  | none => .error ⟨404, "Talk not found"⟩
  | some talk =>
  if !(talk.speakers.any (fun s => s.uid == uid)) then .error ⟨403, "Forbidden"⟩ else
  match getEventById db eventId with
  | none => .error ⟨404, "Event not found"⟩
  | some event =>
  if !(isCfpOpened event.type event.cfpStart event.cfpEnd now) then .error ⟨403, "CFP is closed"⟩ else
  if event.formatsRequired && isEmptyIds body.formats then
    .error ⟨400, "Formats are required for the event"⟩ else
  if event.categoriesRequired && isEmptyIds body.categories then
    .error ⟨400, "Categories are required for the event"⟩ else
  let proposals := findUserProposalsForEvent db eventId user.id
  match proposals.find? (fun p => p.talkId == talkId) with
  | some proposal => .ok (.updated, updateProposal db proposal.id talk body)
  | none =>
    if maxReached event proposals then .error ⟨403, "Max proposals reached"⟩
    else .ok (.created, createProposal db talkId eventId talk body)

/-- Result of `unsubmitTalk`: an HTTP error or the resulting store. -/
abbrev UnsubmitResult := Except HttpException Db

/-- The HTTP error of a failed unsubmit, if any. -/
def UnsubmitResult.err? : UnsubmitResult → Option HttpException
  | .ok _ => none
  | .error e => some e

/-- Embedding of `unsubmitTalk` (talks.controller.ts lines 211-244): same requester, talk,
speaker, event and CFP checks as submit, then the single proposal for
(talkId, eventId) is located (404 if absent) and hard-deleted. -/
def unsubmitTalk (uid : String) (talkId eventId : Nat) (now : Nat) (db : Db) : UnsubmitResult :=
  match getUserByUid db uid with
  | none => .error ⟨404, "User not found"⟩
  | some _user =>
  match getTalk db talkId with
  | none => .error ⟨404, "Talk not found"⟩
  | some talk =>
  if !(talk.speakers.any (fun s => s.uid == uid)) then .error ⟨403, "Forbidden"⟩ else
  match getEventById db eventId with
  | none => .error ⟨404, "Event not found"⟩
  | some event =>
  if !(isCfpOpened event.type event.cfpStart event.cfpEnd now) then .error ⟨403, "CFP is closed"⟩ else
  match getProposalForEvent db talkId eventId with
  | none => .error ⟨404, "Proposal not found"⟩
  | some proposal => .ok (deleteProposal db proposal.id)

/-- The proposal rows for a given (talkId, eventId) pair. The invariant of the data model is that at most one such row exists. -/
def pairProposals (db : Db) (talkId eventId : Nat) : List Proposal :=
  db.proposals.filter (fun p => p.talkId == talkId && p.eventId == eventId)

/-- Store well-formedness used by the relational schema: external uids are
unique; every speaker record attached to a talk is a row of the user table;
and at most one proposal row exists per (talkId, eventId) pair. -/
def Db.WellFormed (db : Db) : Prop :=
  db.users.Pairwise (fun a b => a.uid ≠ b.uid) ∧
  (∀ t ∈ db.talks, ∀ s ∈ t.speakers, s ∈ db.users) ∧
  db.proposals.Pairwise (fun p q => ¬(p.talkId = q.talkId ∧ p.eventId = q.eventId))

instance (db : Db) : Decidable db.WellFormed := by
  unfold Db.WellFormed
  infer_instance

/-! ### Organizer side: rating, messaging and the authorization gate

The organizer controllers themselves are not part of the included sources;
only their end-to-end tests are. The handlers below are modelled from the
design document (§4.1, §4.4, §4.5) and checked against the behaviour the
tests pin down. -/

/-- The categorical rating feelings (the read path aggregates loves, hates,
no-opinion; the tests use NEUTRAL). -/
inductive RatingFeeling
  | POSITIVE
  | NEGATIVE
  | NEUTRAL
  | NO_OPINION
deriving DecidableEq, Repr

/-- A rating row, unique per (userId, proposalId). -/
structure Rating where
  userId : Nat
  proposalId : Nat
  rating : Option Int
  feeling : Option RatingFeeling
deriving DecidableEq, Repr

/-- Modelled from the spec: the accepted numeric range of a rating (§4.4
"validates rating is within the accepted numeric range"; the five-point scale
of the rating UI). -/
def ratingValid : Option Int → Bool
  | none => true
  | some r => decide (0 ≤ r) && decide (r ≤ 5)

/-- Modelled from the spec: `rate(proposalId, userId, rating, feeling)`
(§4.4); the ratings controller is not part of the included sources. Invalid
input fails ValidationFailed (400); if both rating and feeling are null,
any existing row for (userId, proposalId) is deleted ("no opinion" is row
absence, not stored nulls); otherwise the row is upserted by that unique key.
A feeling outside the defined values is excluded here by typing. -/
def rate (ratings : List Rating) (proposalId userId : Nat)
    (rating : Option Int) (feeling : Option RatingFeeling) :
    Except HttpException (List Rating) :=
  if !(ratingValid rating) then .error ⟨400, "Validation failed"⟩
  else if rating.isNone && feeling.isNone then
    .ok (ratings.filter (fun r => !(r.userId == userId && r.proposalId == proposalId)))
  else if ratings.any (fun r => r.userId == userId && r.proposalId == proposalId) then
    .ok (ratings.map (fun r =>
      if r.userId == userId && r.proposalId == proposalId then
        { r with rating := rating, feeling := feeling }
      else r))
  else .ok (ratings ++ [⟨userId, proposalId, rating, feeling⟩])

/-- Read-back of the (userId, proposalId) rating row (the unique-key lookup
the tests perform after each `rate` call). -/
def findRating (ratings : List Rating) (userId proposalId : Nat) : Option Rating :=
  ratings.find? (fun r => r.userId == userId && r.proposalId == proposalId)

/-- Message channels (organizer vs. speaker threads). -/
inductive MessageChannel
  | ORGANIZER
  | SPEAKER
deriving DecidableEq, Repr

/-- A message row attached to a proposal, authored by a user. -/
structure Message where
  id : Nat
  userId : Nat
  proposalId : Nat
  message : String
  channel : MessageChannel
deriving DecidableEq, Repr

/-- Modelled from the spec: `findMessage` (§6) — locate the message by id
belonging to the requesting user for the proposal; the messages controller is
not part of the included sources. -/
def findMessage (msgs : List Message) (messageId userId proposalId : Nat) : Option Message :=
  msgs.find? (fun m => m.id == messageId && m.userId == userId && m.proposalId == proposalId)

/-- Modelled from the spec: message update (§4.5) — requires the message to
exist and belong to the requesting user for that proposal, otherwise
MessageNotFound (404); on success the text is overwritten in place. -/
def updateMessage (msgs : List Message) (messageId userId proposalId : Nat) (text : String) :
    Except HttpException (List Message) :=
  match findMessage msgs messageId userId proposalId with
  | none => .error ⟨404, "Message not found"⟩
  | some m => .ok (msgs.map (fun x => if x.id == m.id then { x with message := text } else x))

/-- Modelled from the spec: message delete (§4.5) — same ownership lookup,
then a hard delete of the row. -/
def deleteMessage (msgs : List Message) (messageId userId proposalId : Nat) :
    Except HttpException (List Message) :=
  match findMessage msgs messageId userId proposalId with
  | none => .error ⟨404, "Message not found"⟩
  | some m => .ok (msgs.filter (fun x => x.id != m.id))

/-- Organization membership roles; REVIEWER is the read-only role. -/
inductive OrganizationRole
  | OWNER
  | MEMBER
  | REVIEWER
deriving DecidableEq, Repr

/-- An organization membership row. -/
structure OrgMember where
  userId : Nat
  organizationId : Nat
  role : OrganizationRole
deriving DecidableEq, Repr

/-- An event as seen by the organizer gate: its direct owner (nullable) and
its organization (nullable). -/
structure OrgEvent where
  id : Nat
  ownerId : Option Nat
  organizationId : Option Nat
deriving DecidableEq, Repr

/-- The store slice read by the organizer gate. -/
structure OrgDb where
  users : List User
  events : List OrgEvent
  members : List OrgMember
deriving DecidableEq, Repr

/-- Verdicts of the identity & authorization gate (§4.1). -/
inductive AuthVerdict
  | unauthenticated
  | userNotFound
  | eventNotFound
  | forbidden
  | authorized
deriving DecidableEq, Repr

/-- Modelled from the spec: the identity & authorization gate for organizer
event-scoped endpoints (§4.1), applying its rules in order: no identity →
Unauthenticated; unresolvable identity → UserNotFound; missing event →
EventNotFound; neither the direct owner of the event nor a member of its
organization → Forbidden; and, on mutation endpoints, a membership whose role
is the read-only REVIEWER role → Forbidden. The gate itself is not part of the
included sources; its behaviour is fixed by the spec and the e2e tests. -/
def checkOrganizerAccess (identity : Option String) (eventId : Nat) (mutation : Bool)
    (db : OrgDb) : AuthVerdict :=
  match identity with
  | none => .unauthenticated
  | some uid =>
  match db.users.find? (fun u => u.uid == uid) with
  | none => .userNotFound
  | some user =>
  match db.events.find? (fun e => e.id == eventId) with
  | none => .eventNotFound
  | some event =>
  if event.ownerId == some user.id then .authorized
  else
    match event.organizationId with
    | none => .forbidden
    | some orgId =>
    match db.members.find? (fun m => m.userId == user.id && m.organizationId == orgId) with
    | none => .forbidden
    | some member =>
      if mutation && member.role == .REVIEWER then .forbidden else .authorized

/-- HTTP status observed for a gate verdict on a mutation endpoint
(successful mutations respond 204 No Content). -/
def verdictStatus : AuthVerdict → Nat
  | .unauthenticated => 401
  | .userNotFound => 404
  | .eventNotFound => 404
  | .forbidden => 403
  | .authorized => 204

/-! ### Concrete stores for witnesses and counterexamples -/

/-- A speaker user for the concrete runs. -/
def wUser : User := ⟨1, "uid1"⟩

/-- A second user (not a speaker of `wTalk`). -/
def wOther : User := ⟨2, "uid2"⟩

/-- A talk whose only speaker is `wUser`. -/
def wTalk : Talk := ⟨10, "T", "A", some "BEGINNER", some "en", none, [wUser]⟩

/-- A second talk of `wUser`. -/
def wTalk2 : Talk := ⟨11, "T2", "A2", none, none, none, [wUser]⟩

/-- An always-open meetup with no cap and no requirements. -/
def wEvent : Event := ⟨20, .MEETUP, none, none, false, false, none⟩

/-- An event whose `maxProposals` is defined but zero. -/
def wEventCap0 : Event := ⟨21, .MEETUP, none, none, false, false, some 0⟩

/-- An event with `maxProposals = 1`. -/
def wEventCap1 : Event := ⟨22, .MEETUP, none, none, false, false, some 1⟩

/-- A conference whose CFP window is `[10, 20]`. -/
def wConf : Event := ⟨23, .CONFERENCE, some 10, some 20, false, false, none⟩

/-- An event requiring formats and categories. -/
def wEventReq : Event := ⟨24, .MEETUP, none, none, true, true, none⟩

/-- The base concrete store. -/
def wDb : Db := ⟨[wUser, wOther], [wTalk, wTalk2], [wEvent, wEventCap0, wEventCap1, wConf, wEventReq], [], 100⟩

/-- The proposal row of `wUser` for `wEventCap1` used in `wDbOne` (id 50). -/
def wRow50 : Proposal := ⟨50, 10, 22, "T", "A", none, none, none, some "old", [1], [], []⟩

/-- A store already holding one proposal of `wUser` for `wEventCap1`
(talk `wTalk`, proposal id 50). -/
def wDbOne : Db :=
  ⟨[wUser, wOther], [wTalk, wTalk2], [wEvent, wEventCap0, wEventCap1, wConf, wEventReq],
    [wRow50], 100⟩

/-- A request body with comments only. -/
def wBody : SubmitBody := ⟨some "c", none, none⟩

/-- A concrete message store: message 7 on proposal 3 is authored by user 2. -/
def wMsgs : List Message := [⟨7, 2, 3, "Hello world", .ORGANIZER⟩]

/-- A concrete gate store: event 5 is owned by user 1 and belongs to
organization 9; user 2 is a REVIEWER member of organization 9. -/
def wOrgDb : OrgDb :=
  ⟨[⟨1, "owner"⟩, ⟨2, "reviewer"⟩, ⟨3, "outsider"⟩],
    [⟨5, some 1, some 9⟩],
    [⟨2, 9, .REVIEWER⟩]⟩

/-- The store after `wUser` submits `wTalk` to `wEvent` once. -/
def wDb1 : Db := createProposal wDb 10 20 wTalk wBody

/-- A third talk of `wUser`. -/
def wTalk3 : Talk := ⟨12, "T3", "A3", none, none, none, [wUser]⟩

/-- A store where `wUser` already has two proposals for `wEventCap1` (above
its cap of 1, as after the cap was lowered). -/
def wDbTwo : Db :=
  ⟨[wUser, wOther], [wTalk, wTalk2, wTalk3], [wEvent, wEventCap0, wEventCap1, wConf, wEventReq],
    [wRow50, ⟨51, 11, 22, "T2", "A2", none, none, none, none, [1], [], []⟩], 100⟩

/-- A request body carrying one format id but no categories. -/
def wBodyF : SubmitBody := ⟨some "c", some [1], none⟩

/-! ## Helper lemmas -/

/-- In a list of users with pairwise-distinct uids, the uid determines the row. -/
theorem eq_of_mem_pairwise_uid {l : List User}
    (h : l.Pairwise (fun a b => a.uid ≠ b.uid)) {a b : User}
    (ha : a ∈ l) (hb : b ∈ l) (huid : a.uid = b.uid) : a = b := by
  induction l with
  | nil => cases ha
  | cons x xs ih =>
    rcases List.pairwise_cons.mp h with ⟨hx, hxs⟩
    rcases List.mem_cons.mp ha with rfl | ha' <;> rcases List.mem_cons.mp hb with rfl | hb'
    · rfl
    · exact absurd huid (hx _ hb')
    · exact absurd huid.symm (hx _ ha')
    · exact ih hxs ha' hb'

/-- Filtering commutes with a map whose function does not change the
filtering predicate. -/
theorem filter_map_of_pred_invariant {α : Type} (f : α → α) (p : α → Bool)
    (h : ∀ a, p (f a) = p a) (l : List α) :
    (l.map f).filter p = (l.filter p).map f := by
  induction l with
  | nil => rfl
  | cons a l ih =>
    cases hp : p a <;>
      simp [List.filter_cons, h a, hp, ih]

/-- Under the pairwise (talkId, eventId) uniqueness invariant, at most one row
matches a given pair. -/
theorem length_pairFilter_le_one {l : List Proposal}
    (h : l.Pairwise (fun p q => ¬(p.talkId = q.talkId ∧ p.eventId = q.eventId)))
    (t e : Nat) :
    (l.filter (fun p => p.talkId == t && p.eventId == e)).length ≤ 1 := by
  have hp : (l.filter (fun p => p.talkId == t && p.eventId == e)).Pairwise
      (fun p q => ¬(p.talkId = q.talkId ∧ p.eventId = q.eventId)) := List.Pairwise.filter _ h
  match hl : l.filter (fun p => p.talkId == t && p.eventId == e) with
  | [] => simp [hl]
  | [a] => simp [hl]
  | a :: b :: rest =>
    exfalso
    rw [hl] at hp
    rcases List.pairwise_cons.mp hp with ⟨hab, _⟩
    have hamem : a ∈ l.filter (fun p => p.talkId == t && p.eventId == e) := by
      rw [hl]; exact List.mem_cons_self _ _
    have hbmem : b ∈ l.filter (fun p => p.talkId == t && p.eventId == e) := by
      rw [hl]; exact List.mem_cons_of_mem _ (List.mem_cons_self _ _)
    have ha := List.of_mem_filter hamem
    have hb := List.of_mem_filter hbmem
    simp only [Bool.and_eq_true, beq_iff_eq] at ha hb
    exact hab b (List.mem_cons_self _ _) ⟨ha.1.trans hb.1.symm, ha.2.trans hb.2.symm⟩

/-- Updating a proposal row leaves the pair-filtered rows in bijection
(content changes; talkId and eventId do not). -/
theorem pairProposals_update (db : Db) (pid : Nat) (talk : Talk) (body : SubmitBody)
    (t e : Nat) :
    pairProposals (updateProposal db pid talk body) t e =
      (pairProposals db t e).map
        (fun q => if q.id == pid then proposalUpdate talk body q else q) := by
  unfold pairProposals updateProposal
  exact filter_map_of_pred_invariant _ _
    (fun a => by cases ha : (a.id == pid) <;> simp [ha, proposalUpdate]) _

/-- Creating a proposal for a pair appends exactly one matching row. -/
theorem pairProposals_create_self (db : Db) (talkId eventId : Nat) (talk : Talk)
    (body : SubmitBody) :
    pairProposals (createProposal db talkId eventId talk body) talkId eventId =
      pairProposals db talkId eventId ++ [newProposal db talkId eventId talk body] := by
  unfold pairProposals createProposal
  rw [List.filter_append _ _]
  simp [newProposal]

/-- If no proposal of the user matches the talk among their proposals for the
event, and every proposal row of the pair lists the user among its speakers,
then the pair has no row at all. -/
theorem pairProposals_eq_nil_of_find_none (db : Db) (talkId eventId userId : Nat)
    (hOwn : ∀ p ∈ db.proposals, p.talkId = talkId → p.eventId = eventId → userId ∈ p.speakerIds)
    (hnone : (findUserProposalsForEvent db eventId userId).find?
        (fun p => p.talkId == talkId) = none) :
    pairProposals db talkId eventId = [] := by
  rw [List.eq_nil_iff_forall_not_mem]
  intro q hq
  have hmem := List.mem_of_mem_filter hq
  have hpred := List.of_mem_filter hq
  simp only [Bool.and_eq_true, beq_iff_eq] at hpred
  obtain ⟨hqt, hqe⟩ := hpred
  have huid := hOwn q hmem hqt hqe
  have hq' : q ∈ findUserProposalsForEvent db eventId userId :=
    List.mem_filter.mpr ⟨hmem, by simp [hqe, huid]⟩
  rw [List.find?_eq_none] at hnone
  exact hnone q hq' (by simp [hqt])

/-- Membership in the proposals of a user for an event. -/
theorem mem_findUserProposalsForEvent {db : Db} {eventId userId : Nat} {p : Proposal} :
    p ∈ findUserProposalsForEvent db eventId userId ↔
      p ∈ db.proposals ∧ p.eventId = eventId ∧ userId ∈ p.speakerIds := by
  simp [findUserProposalsForEvent, List.mem_filter, and_assoc]

/-- Membership in the rows of a (talkId, eventId) pair. -/
theorem mem_pairProposals {db : Db} {t e : Nat} {p : Proposal} :
    p ∈ pairProposals db t e ↔ p ∈ db.proposals ∧ p.talkId = t ∧ p.eventId = e := by
  simp [pairProposals, List.mem_filter, and_assoc]

/-- A well-formed store has at most one row per (talkId, eventId) pair. -/
theorem pairProposals_length_le_one {db : Db} (hWF : db.WellFormed) (t e : Nat) :
    (pairProposals db t e).length ≤ 1 :=
  length_pairFilter_le_one hWF.2.2 t e

/-- Characterisation of the cap guard. -/
theorem maxReached_iff (event : Event) (l : List Proposal) :
    maxReached event l = true ↔
      ∃ m, event.maxProposals = some m ∧ m ≠ 0 ∧ l.length = m := by
  unfold maxReached
  cases event.maxProposals with
  | none => simp
  | some m =>
    simp only [Bool.and_eq_true, bne_iff_ne, ne_eq, beq_iff_eq, Option.some.injEq]
    constructor
    · rintro ⟨hm, hl⟩
      exact ⟨m, rfl, hm, hl⟩
    · rintro ⟨m', hm', h0, hl⟩
      cases hm'
      exact ⟨h0, hl⟩

/-- Evaluation of `submitTalk` once every guard check passes: the result is
determined by the existing-proposal lookup and the cap guard. -/
theorem submitTalk_eval (uid : String) (talkId eventId : Nat) (body : SubmitBody)
    (now : Nat) (db : Db) (user : User) (talk : Talk) (event : Event)
    (hU : getUserByUid db uid = some user)
    (hT : getTalk db talkId = some talk)
    (hS : talk.speakers.any (fun s => s.uid == uid) = true)
    (hE : getEventById db eventId = some event)
    (hC : isCfpOpened event.type event.cfpStart event.cfpEnd now = true)
    (hF : (event.formatsRequired && isEmptyIds body.formats) = false)
    (hK : (event.categoriesRequired && isEmptyIds body.categories) = false) :
    submitTalk uid talkId eventId body now db =
      match (findUserProposalsForEvent db eventId user.id).find?
          (fun p => p.talkId == talkId) with
      | some proposal => .ok (.updated, updateProposal db proposal.id talk body)
      | none =>
        if maxReached event (findUserProposalsForEvent db eventId user.id) then
          .error ⟨403, "Max proposals reached"⟩
        else .ok (.created, createProposal db talkId eventId talk body) := by
  simp only [submitTalk, hU, hT, hS, hE, hC, hF, hK, Bool.not_true, Bool.false_eq_true,
    if_false]

/-- Inversion: a successful submit implies every guard check passed. -/
theorem submitTalk_ok_inv {uid : String} {talkId eventId : Nat} {body : SubmitBody}
    {now : Nat} {db : Db} {br : SubmitBranch} {db' : Db}
    (h : submitTalk uid talkId eventId body now db = .ok (br, db')) :
    ∃ user talk event,
      getUserByUid db uid = some user ∧
      getTalk db talkId = some talk ∧
      talk.speakers.any (fun s => s.uid == uid) = true ∧
      getEventById db eventId = some event ∧
      isCfpOpened event.type event.cfpStart event.cfpEnd now = true ∧
      (event.formatsRequired && isEmptyIds body.formats) = false ∧
      (event.categoriesRequired && isEmptyIds body.categories) = false := by
  unfold submitTalk at h
  split at h
  · exact absurd h (by simp)
  next user hU =>
  split at h
  · exact absurd h (by simp)
  next talk hT =>
  split at h
  · exact absurd h (by simp)
  next hS =>
  split at h
  · exact absurd h (by simp)
  next event hE =>
  split at h
  · exact absurd h (by simp)
  next hC =>
  split at h
  · exact absurd h (by simp)
  next hF =>
  split at h
  · exact absurd h (by simp)
  next hK =>
  refine ⟨user, talk, event, hU, hT, ?_, hE, ?_, ?_, ?_⟩
  · simpa using hS
  · simpa using hC
  · simpa using hF
  · simpa using hK

/-! ## Claim theorems -/

/-- C3 (amended): `submit` performs its validation checks in source order with
distinct failures: unresolvable requester → 404 "User not found"; then missing
talk → 404 "Talk not found"; then requester not among the speakers of the talk →
403 "Forbidden"; then missing event → 404 "Event not found"; then closed CFP
window → 403 "CFP is closed"; then missing-but-required formats →
400 "Formats are required for the event"; then missing-but-required categories
→ 400 "Categories are required for the event". In this embedding an error
result carries no store, so the store is mutated only when every check
passes. -/
theorem submit_check_order (uid : String) (talkId eventId : Nat) (body : SubmitBody)
    (now : Nat) (db : Db) :
    (getUserByUid db uid = none →
      submitTalk uid talkId eventId body now db = .error ⟨404, "User not found"⟩) ∧
    (∀ user, getUserByUid db uid = some user → getTalk db talkId = none →
      submitTalk uid talkId eventId body now db = .error ⟨404, "Talk not found"⟩) ∧
    (∀ user talk, getUserByUid db uid = some user → getTalk db talkId = some talk →
      talk.speakers.any (fun s => s.uid == uid) = false →
      submitTalk uid talkId eventId body now db = .error ⟨403, "Forbidden"⟩) ∧
    (∀ user talk, getUserByUid db uid = some user → getTalk db talkId = some talk →
      talk.speakers.any (fun s => s.uid == uid) = true →
      getEventById db eventId = none →
      submitTalk uid talkId eventId body now db = .error ⟨404, "Event not found"⟩) ∧
    (∀ user talk event, getUserByUid db uid = some user → getTalk db talkId = some talk →
      talk.speakers.any (fun s => s.uid == uid) = true →
      getEventById db eventId = some event →
      isCfpOpened event.type event.cfpStart event.cfpEnd now = false →
      submitTalk uid talkId eventId body now db = .error ⟨403, "CFP is closed"⟩) ∧
    (∀ user talk event, getUserByUid db uid = some user → getTalk db talkId = some talk →
      talk.speakers.any (fun s => s.uid == uid) = true →
      getEventById db eventId = some event →
      isCfpOpened event.type event.cfpStart event.cfpEnd now = true →
      event.formatsRequired = true → isEmptyIds body.formats = true →
      submitTalk uid talkId eventId body now db =
        .error ⟨400, "Formats are required for the event"⟩) ∧
    (∀ user talk event, getUserByUid db uid = some user → getTalk db talkId = some talk →
      talk.speakers.any (fun s => s.uid == uid) = true →
      getEventById db eventId = some event →
      isCfpOpened event.type event.cfpStart event.cfpEnd now = true →
      (event.formatsRequired && isEmptyIds body.formats) = false →
      event.categoriesRequired = true → isEmptyIds body.categories = true →
      submitTalk uid talkId eventId body now db =
        .error ⟨400, "Categories are required for the event"⟩) := by
  refine ⟨?_, ?_, ?_, ?_, ?_, ?_, ?_⟩
  · intro h
    simp [submitTalk, h]
  · intro user hU hT
    simp [submitTalk, hU, hT]
  · intro user talk hU hT hs
    simp [submitTalk, hU, hT, hs]
  · intro user talk hU hT hs hE
    simp [submitTalk, hU, hT, hs, hE]
  · intro user talk event hU hT hs hE hC
    simp [submitTalk, hU, hT, hs, hE, hC]
  · intro user talk event hU hT hs hE hC hfr hfe
    simp [submitTalk, hU, hT, hs, hE, hC, hfr, hfe]
  · intro user talk event hU hT hs hE hC hFK hcr hce
    simp [submitTalk, hU, hT, hs, hE, hC, hFK, hcr, hce]

/-- C3 counterexample: with every earlier check passing, a missing required
formats list fails with the message "Formats are required for the event", not
the claimed "Formats are required". -/
theorem submit_messages_counterexample :
    submitTalk "uid1" 10 24 wBody 0 wDb =
      .error ⟨400, "Formats are required for the event"⟩ ∧
    HttpException.mk 400 "Formats are required for the event" ≠
      ⟨400, "Formats are required"⟩ :=
  ⟨rfl, by decide⟩

/-- Witness for C3: each failure case of `submit_check_order` realised at a
concrete store. -/
theorem submit_check_order_witness :
    submitTalk "ghost" 10 20 wBody 0 wDb = .error ⟨404, "User not found"⟩ ∧
    submitTalk "uid1" 99 20 wBody 0 wDb = .error ⟨404, "Talk not found"⟩ ∧
    submitTalk "uid2" 10 20 wBody 0 wDb = .error ⟨403, "Forbidden"⟩ ∧
    submitTalk "uid1" 10 99 wBody 0 wDb = .error ⟨404, "Event not found"⟩ ∧
    submitTalk "uid1" 10 23 wBody 0 wDb = .error ⟨403, "CFP is closed"⟩ ∧
    submitTalk "uid1" 10 24 wBody 0 wDb =
      .error ⟨400, "Formats are required for the event"⟩ ∧
    submitTalk "uid1" 10 24 wBodyF 0 wDb =
      .error ⟨400, "Categories are required for the event"⟩ := by
  refine ⟨?_, ?_, ?_, ?_, ?_, ?_, ?_⟩
  · exact (submit_check_order "ghost" 10 20 wBody 0 wDb).1 rfl
  · exact (submit_check_order "uid1" 99 20 wBody 0 wDb).2.1 wUser rfl rfl
  · exact (submit_check_order "uid2" 10 20 wBody 0 wDb).2.2.1 wOther wTalk rfl rfl rfl
  · exact (submit_check_order "uid1" 10 99 wBody 0 wDb).2.2.2.1 wUser wTalk rfl rfl rfl rfl
  · exact (submit_check_order "uid1" 10 23 wBody 0 wDb).2.2.2.2.1 wUser wTalk wConf
      rfl rfl rfl rfl rfl
  · exact (submit_check_order "uid1" 10 24 wBody 0 wDb).2.2.2.2.2.1 wUser wTalk wEventReq
      rfl rfl rfl rfl rfl rfl rfl
  · exact (submit_check_order "uid1" 10 24 wBodyF 0 wDb).2.2.2.2.2.2 wUser wTalk wEventReq
      rfl rfl rfl rfl rfl rfl rfl rfl

/-- C4: for an event whose CFP window excludes the current time, both submit
and unsubmit fail with HTTP status 403, whether or not the requester is a
speaker of the talk (a non-speaker fails 403 "Forbidden", a speaker fails
403 "CFP is closed"). The requester, talk and event are assumed to resolve,
as the claim presupposes. -/
theorem cfp_closed_blocks (uid : String) (talkId eventId : Nat) (body : SubmitBody)
    (now : Nat) (db : Db) (user : User) (talk : Talk) (event : Event)
    (hU : getUserByUid db uid = some user)
    (hT : getTalk db talkId = some talk)
    (hE : getEventById db eventId = some event)
    (hC : isCfpOpened event.type event.cfpStart event.cfpEnd now = false) :
    (SubmitResult.err? (submitTalk uid talkId eventId body now db)).map
        (fun e => e.status) = some 403 ∧
    (UnsubmitResult.err? (unsubmitTalk uid talkId eventId now db)).map
        (fun e => e.status) = some 403 := by
  cases hs : talk.speakers.any (fun s => s.uid == uid) <;>
    simp [submitTalk, unsubmitTalk, hU, hT, hE, hC, hs,
      SubmitResult.err?, UnsubmitResult.err?]

/-- C1: submit is idempotent per (talk, event) pair: if a submit by a speaker
succeeds (either branch), an immediate second submit with the same body takes
the update branch — it updates the existing proposal instead of creating a new
row — and leaves exactly one proposal row for (talk, event). Preconditions:
the store is well-formed (unique uids, talk speakers drawn from the user
table, at most one row per pair), and every existing row for this pair lists
the requester among its speakers, which is how the data model reaches such
states (proposal speakers are copied from the talk at submission time). -/
theorem submit_idempotent (uid : String) (talkId eventId : Nat) (body : SubmitBody)
    (now : Nat) (db : Db) (user : User) (br1 : SubmitBranch) (db1 : Db)
    (hWF : db.WellFormed)
    (hU : getUserByUid db uid = some user)
    (hOwn : ∀ p ∈ db.proposals, p.talkId = talkId → p.eventId = eventId →
      user.id ∈ p.speakerIds)
    (h1 : submitTalk uid talkId eventId body now db = .ok (br1, db1)) :
    ∃ db2, submitTalk uid talkId eventId body now db1 = .ok (.updated, db2) ∧
      (pairProposals db2 talkId eventId).length = 1 := by
  obtain ⟨user', talk, event, hU', hT, hS, hE, hC, hF, hK⟩ := submitTalk_ok_inv h1
  rw [hU] at hU'
  injection hU' with hu
  subst hu
  have htalk_mem : talk ∈ db.talks := List.mem_of_find?_eq_some hT
  obtain ⟨s, hs_mem, hs_beq⟩ := List.any_eq_true.mp hS
  have hs_uid : s.uid = uid := by simpa using hs_beq
  have hsU : s ∈ db.users := hWF.2.1 talk htalk_mem s hs_mem
  have huser_mem : user ∈ db.users := List.mem_of_find?_eq_some hU
  have huser_uid : user.uid = uid := by simpa using List.find?_some hU
  have hsu : s = user := eq_of_mem_pairwise_uid hWF.1 hsU huser_mem (by rw [hs_uid, huser_uid])
  have hid : user.id ∈ talk.speakers.map (fun x => x.id) :=
    List.mem_map.mpr ⟨s, hs_mem, by rw [hsu]⟩
  have heval := submitTalk_eval uid talkId eventId body now db user talk event
    hU hT hS hE hC hF hK
  rw [heval] at h1
  split at h1
  next p hfind =>
    simp only [Except.ok.injEq, Prod.mk.injEq] at h1
    obtain ⟨hbr, hdb⟩ := h1
    subst hdb
    have hp_memf : p ∈ findUserProposalsForEvent db eventId user.id :=
      List.mem_of_find?_eq_some hfind
    obtain ⟨hp_mem, hp_ev, _⟩ := mem_findUserProposalsForEvent.mp hp_memf
    have hp_tk : p.talkId = talkId := by simpa using List.find?_some hfind
    have hup_mem : proposalUpdate talk body p ∈ (updateProposal db p.id talk body).proposals := by
      have hmm := List.mem_map_of_mem
        (fun r => if r.id == p.id then proposalUpdate talk body r else r) hp_mem
      simpa [updateProposal] using hmm
    have hU1 : getUserByUid (updateProposal db p.id talk body) uid = some user := hU
    have hT1 : getTalk (updateProposal db p.id talk body) talkId = some talk := hT
    have hE1 : getEventById (updateProposal db p.id talk body) eventId = some event := hE
    have heval2 := submitTalk_eval uid talkId eventId body now
      (updateProposal db p.id talk body) user talk event hU1 hT1 hS hE1 hC hF hK
    have hup_memf : proposalUpdate talk body p ∈
        findUserProposalsForEvent (updateProposal db p.id talk body) eventId user.id := by
      rw [mem_findUserProposalsForEvent]
      exact ⟨hup_mem, hp_ev, hid⟩
    have hfs : ((findUserProposalsForEvent (updateProposal db p.id talk body)
        eventId user.id).find? (fun q => q.talkId == talkId)).isSome := by
      rw [List.find?_isSome]
      exact ⟨proposalUpdate talk body p, hup_memf, by simpa using hp_tk⟩
    obtain ⟨q, hq_find⟩ := Option.isSome_iff_exists.mp hfs
    rw [hq_find] at heval2
    refine ⟨updateProposal (updateProposal db p.id talk body) q.id talk body, heval2, ?_⟩
    have hc2 : (pairProposals (updateProposal (updateProposal db p.id talk body) q.id talk body)
        talkId eventId).length =
        (pairProposals (updateProposal db p.id talk body) talkId eventId).length := by
      rw [pairProposals_update]
      exact List.length_map _ _
    have hc1 : (pairProposals (updateProposal db p.id talk body) talkId eventId).length =
        (pairProposals db talkId eventId).length := by
      rw [pairProposals_update]
      exact List.length_map _ _
    have hle := pairProposals_length_le_one hWF talkId eventId
    have hpp : p ∈ pairProposals db talkId eventId :=
      mem_pairProposals.mpr ⟨hp_mem, hp_tk, hp_ev⟩
    have hpos : 0 < (pairProposals db talkId eventId).length :=
      List.length_pos.mpr (List.ne_nil_of_mem hpp)
    omega
  next hfind =>
    split at h1
    · exact absurd h1 (by simp)
    next hmax =>
    simp only [Except.ok.injEq, Prod.mk.injEq] at h1
    obtain ⟨hbr, hdb⟩ := h1
    subst hdb
    have hnil : pairProposals db talkId eventId = [] :=
      pairProposals_eq_nil_of_find_none db talkId eventId user.id hOwn hfind
    have hnew_mem : newProposal db talkId eventId talk body ∈
        (createProposal db talkId eventId talk body).proposals := by
      simp [createProposal]
    have hU1 : getUserByUid (createProposal db talkId eventId talk body) uid = some user := hU
    have hT1 : getTalk (createProposal db talkId eventId talk body) talkId = some talk := hT
    have hE1 : getEventById (createProposal db talkId eventId talk body) eventId = some event := hE
    have heval2 := submitTalk_eval uid talkId eventId body now
      (createProposal db talkId eventId talk body) user talk event hU1 hT1 hS hE1 hC hF hK
    have hnew_memf : newProposal db talkId eventId talk body ∈
        findUserProposalsForEvent (createProposal db talkId eventId talk body)
          eventId user.id := by
      rw [mem_findUserProposalsForEvent]
      exact ⟨hnew_mem, rfl, hid⟩
    have hfs : ((findUserProposalsForEvent (createProposal db talkId eventId talk body)
        eventId user.id).find? (fun q => q.talkId == talkId)).isSome := by
      rw [List.find?_isSome]
      exact ⟨newProposal db talkId eventId talk body, hnew_memf, by simp [newProposal]⟩
    obtain ⟨q, hq_find⟩ := Option.isSome_iff_exists.mp hfs
    rw [hq_find] at heval2
    refine ⟨_, heval2, ?_⟩
    have hc2 : (pairProposals (updateProposal (createProposal db talkId eventId talk body)
        q.id talk body) talkId eventId).length =
        (pairProposals (createProposal db talkId eventId talk body) talkId eventId).length := by
      rw [pairProposals_update]
      exact List.length_map _ _
    have hc1 : pairProposals (createProposal db talkId eventId talk body) talkId eventId =
        pairProposals db talkId eventId ++ [newProposal db talkId eventId talk body] :=
      pairProposals_create_self db talkId eventId talk body
    rw [hc2, hc1, hnil]
    simp

/-- Witness for C1: the concrete double submission of `wTalk` to `wEvent`,
starting from the empty proposal table of `wDb`. -/
theorem submit_idempotent_witness :
    ∃ db2, submitTalk "uid1" 10 20 wBody 0 wDb1 = .ok (.updated, db2) ∧
      (pairProposals db2 10 20).length = 1 :=
  submit_idempotent "uid1" 10 20 wBody 0 wDb wUser .created wDb1
    (by decide) rfl (by decide) rfl

/-- C2 (amended): cap enforcement with a defined, non-zero `maxProposals`:
when the requester already has exactly that many proposals for the event and
none of them is for this talk, submit fails 403 "Max proposals reached"; a
submit that finds an existing proposal for (talk, event) takes the update
branch and is never blocked by the cap. (The zero-cap instance of the original
claim fails on the code; see the corresponding counterexample.) -/
theorem submit_cap_enforced (uid : String) (talkId eventId : Nat) (body : SubmitBody)
    (now : Nat) (db : Db) (user : User) (talk : Talk) (event : Event)
    (hU : getUserByUid db uid = some user)
    (hT : getTalk db talkId = some talk)
    (hS : talk.speakers.any (fun s => s.uid == uid) = true)
    (hE : getEventById db eventId = some event)
    (hC : isCfpOpened event.type event.cfpStart event.cfpEnd now = true)
    (hF : (event.formatsRequired && isEmptyIds body.formats) = false)
    (hK : (event.categoriesRequired && isEmptyIds body.categories) = false) :
    (∀ m : Nat, event.maxProposals = some m → m ≠ 0 →
      (findUserProposalsForEvent db eventId user.id).length = m →
      (findUserProposalsForEvent db eventId user.id).find?
          (fun q => q.talkId == talkId) = none →
      submitTalk uid talkId eventId body now db = .error ⟨403, "Max proposals reached"⟩) ∧
    (∀ p : Proposal,
      (findUserProposalsForEvent db eventId user.id).find?
          (fun q => q.talkId == talkId) = some p →
      submitTalk uid talkId eventId body now db =
        .ok (.updated, updateProposal db p.id talk body)) := by
  have heval := submitTalk_eval uid talkId eventId body now db user talk event
    hU hT hS hE hC hF hK
  constructor
  · intro m hM hm0 hlen hnone
    rw [heval, hnone]
    have hmr : maxReached event (findUserProposalsForEvent db eventId user.id) = true := by
      rw [maxReached_iff]
      exact ⟨m, hM, hm0, hlen⟩
    simp [hmr]
  · intro p hfind
    rw [heval, hfind]

/-- C2 counterexample: `wEventCap0` defines `maxProposals = 0` and the user
already has exactly 0 proposals for it, yet a fresh (non-update) submit is not
rejected — the truthiness guard lets a zero cap pass and a new proposal is
created instead of failing Forbidden. -/
theorem submit_cap_zero_counterexample :
    wEventCap0.maxProposals = some 0 ∧
    (findUserProposalsForEvent wDb 21 wUser.id).length = 0 ∧
    (findUserProposalsForEvent wDb 21 wUser.id).find? (fun q => q.talkId == 10) = none ∧
    submitTalk "uid1" 10 21 wBody 0 wDb =
      .ok (.created, createProposal wDb 10 21 wTalk wBody) :=
  ⟨rfl, rfl, rfl, rfl⟩

/-- Witness for C2: with cap 1 and one existing proposal, submitting a second
talk is rejected while resubmitting the first updates it in place. -/
theorem submit_cap_enforced_witness :
    submitTalk "uid1" 11 22 wBody 0 wDbOne = .error ⟨403, "Max proposals reached"⟩ ∧
    submitTalk "uid1" 10 22 wBody 0 wDbOne =
      .ok (.updated, updateProposal wDbOne 50 wTalk wBody) := by
  constructor
  · exact (submit_cap_enforced "uid1" 11 22 wBody 0 wDbOne wUser wTalk2 wEventCap1
      rfl rfl rfl rfl rfl rfl rfl).1 1 rfl (by decide) rfl rfl
  · exact (submit_cap_enforced "uid1" 10 22 wBody 0 wDbOne wUser wTalk wEventCap1
      rfl rfl rfl rfl rfl rfl rfl).2 wRow50 rfl

/-- C10: the cap guard is a truthiness check plus strict equality: with no
existing proposal for the talk, the submit is rejected iff `maxProposals` is a
defined non-zero `m` and the proposal count of the user for the event equals `m`
exactly; in every other case (count strictly above the cap, cap 0, cap
null/undefined) the guard passes and a new proposal is created. -/
theorem submit_cap_truthiness (uid : String) (talkId eventId : Nat) (body : SubmitBody)
    (now : Nat) (db : Db) (user : User) (talk : Talk) (event : Event)
    (hU : getUserByUid db uid = some user)
    (hT : getTalk db talkId = some talk)
    (hS : talk.speakers.any (fun s => s.uid == uid) = true)
    (hE : getEventById db eventId = some event)
    (hC : isCfpOpened event.type event.cfpStart event.cfpEnd now = true)
    (hF : (event.formatsRequired && isEmptyIds body.formats) = false)
    (hK : (event.categoriesRequired && isEmptyIds body.categories) = false)
    (hnone : (findUserProposalsForEvent db eventId user.id).find?
        (fun q => q.talkId == talkId) = none) :
    (submitTalk uid talkId eventId body now db = .error ⟨403, "Max proposals reached"⟩ ↔
      ∃ m, event.maxProposals = some m ∧ m ≠ 0 ∧
        (findUserProposalsForEvent db eventId user.id).length = m) ∧
    (¬(∃ m, event.maxProposals = some m ∧ m ≠ 0 ∧
        (findUserProposalsForEvent db eventId user.id).length = m) →
      submitTalk uid talkId eventId body now db =
        .ok (.created, createProposal db talkId eventId talk body)) := by
  have heval := submitTalk_eval uid talkId eventId body now db user talk event
    hU hT hS hE hC hF hK
  have hiff := maxReached_iff event (findUserProposalsForEvent db eventId user.id)
  rw [heval, hnone]
  cases hmr : maxReached event (findUserProposalsForEvent db eventId user.id) with
  | true =>
    refine ⟨iff_of_true (by simp) (hiff.mp hmr), fun hno => absurd (hiff.mp hmr) hno⟩
  | false =>
    constructor
    · constructor
      · intro h
        exact absurd h (by simp)
      · intro hex
        exact absurd (hiff.mpr hex) (by simp [hmr])
    · intro _
      simp

/-- Witness for C10: a zero cap passes the guard and creates (first store);
with cap 1 and two existing proposals (strictly above the cap), a third talk
still passes the guard and creates (second store). -/
theorem submit_cap_truthiness_witness :
    submitTalk "uid1" 10 21 wBody 0 wDb =
      .ok (.created, createProposal wDb 10 21 wTalk wBody) ∧
    submitTalk "uid1" 12 22 wBody 0 wDbTwo =
      .ok (.created, createProposal wDbTwo 12 22 wTalk3 wBody) := by
  constructor
  · exact (submit_cap_truthiness "uid1" 10 21 wBody 0 wDb wUser wTalk wEventCap0
      rfl rfl rfl rfl rfl rfl rfl rfl).2
      (by rintro ⟨m, hm, h0, hl⟩
          exact h0 (Option.some.inj hm).symm)
  · exact (submit_cap_truthiness "uid1" 12 22 wBody 0 wDbTwo wUser wTalk3 wEventCap1
      rfl rfl rfl rfl rfl rfl rfl rfl).2
      (by rintro ⟨m, hm, h0, hl⟩
          have h1 : 1 = m := Option.some.inj hm
          subst h1
          exact absurd hl (by decide))

/-- C5: when submit finds an existing proposal for (talk, event), it takes the
update branch: the content fields of the proposal are overwritten from the current
talk, comments come from the request body, the speaker/format/category
association lists are replaced wholesale with exactly the supplied sets, the
row keeps its id, no row is added or removed, and every other row is
untouched. -/
theorem submit_update_frame (uid : String) (talkId eventId : Nat) (body : SubmitBody)
    (now : Nat) (db : Db) (user : User) (talk : Talk) (event : Event) (p : Proposal)
    (hU : getUserByUid db uid = some user)
    (hT : getTalk db talkId = some talk)
    (hS : talk.speakers.any (fun s => s.uid == uid) = true)
    (hE : getEventById db eventId = some event)
    (hC : isCfpOpened event.type event.cfpStart event.cfpEnd now = true)
    (hF : (event.formatsRequired && isEmptyIds body.formats) = false)
    (hK : (event.categoriesRequired && isEmptyIds body.categories) = false)
    (hfind : (findUserProposalsForEvent db eventId user.id).find?
        (fun q => q.talkId == talkId) = some p) :
    submitTalk uid talkId eventId body now db =
      .ok (.updated, updateProposal db p.id talk body) ∧
    (updateProposal db p.id talk body).proposals.length = db.proposals.length ∧
    (∀ q ∈ db.proposals, q.id ≠ p.id → q ∈ (updateProposal db p.id talk body).proposals) ∧
    proposalUpdate talk body p ∈ (updateProposal db p.id talk body).proposals ∧
    (proposalUpdate talk body p).id = p.id ∧
    (proposalUpdate talk body p).talkId = p.talkId ∧
    (proposalUpdate talk body p).eventId = p.eventId ∧
    (proposalUpdate talk body p).title = talk.title ∧
    (proposalUpdate talk body p).abstract = talk.abstract ∧
    (proposalUpdate talk body p).level = talk.level ∧
    (proposalUpdate talk body p).language = talk.language ∧
    (proposalUpdate talk body p).references = talk.references ∧
    (proposalUpdate talk body p).comments = body.comments ∧
    (proposalUpdate talk body p).speakerIds = talk.speakers.map (fun s => s.id) ∧
    (proposalUpdate talk body p).formatIds = submittedIds body.formats ∧
    (proposalUpdate talk body p).categoryIds = submittedIds body.categories := by
  have heval := submitTalk_eval uid talkId eventId body now db user talk event
    hU hT hS hE hC hF hK
  refine ⟨?_, ?_, ?_, ?_, rfl, rfl, rfl, rfl, rfl, rfl, rfl, rfl, rfl, rfl, rfl, rfl⟩
  · rw [heval, hfind]
  · simp [updateProposal]
  · intro q hq hne
    have hb : (q.id == p.id) = false := beq_eq_false_iff_ne.mpr hne
    have hmm := List.mem_map_of_mem
      (fun r => if r.id == p.id then proposalUpdate talk body r else r) hq
    rw [show (fun r => if r.id == p.id then proposalUpdate talk body r else r) q = q by
      simp [hb]] at hmm
    simpa [updateProposal] using hmm
  · have hp_mem : p ∈ db.proposals :=
      (mem_findUserProposalsForEvent.mp (List.mem_of_find?_eq_some hfind)).1
    have hmm := List.mem_map_of_mem
      (fun r => if r.id == p.id then proposalUpdate talk body r else r) hp_mem
    simpa [updateProposal] using hmm

/-- Witness for C5: resubmitting `wTalk` to `wEventCap1` over the existing
proposal 50 updates in place and keeps the row count. -/
theorem submit_update_frame_witness :
    submitTalk "uid1" 10 22 wBody 0 wDbOne =
      .ok (.updated, updateProposal wDbOne 50 wTalk wBody) ∧
    (updateProposal wDbOne 50 wTalk wBody).proposals.length = wDbOne.proposals.length := by
  have h := submit_update_frame "uid1" 10 22 wBody 0 wDbOne wUser wTalk wEventCap1 wRow50
    rfl rfl rfl rfl rfl rfl rfl rfl
  exact ⟨h.1, h.2.1⟩

/-- Witness for C4: a conference with window `[10, 20]` at time 0. -/
theorem cfp_closed_blocks_witness :
    (SubmitResult.err? (submitTalk "uid1" 10 23 wBody 0 wDb)).map
        (fun e => e.status) = some 403 ∧
    (UnsubmitResult.err? (unsubmitTalk "uid1" 10 23 0 wDb)).map
        (fun e => e.status) = some 403 :=
  cfp_closed_blocks "uid1" 10 23 wBody 0 wDb wUser wTalk wConf rfl rfl rfl rfl

/-- C6: unsubmit resolves the requester, talk and event with the same failures
as submit, re-checks speaker membership and the CFP window, fails 404
"Proposal not found" when the pair has no row, and otherwise hard-deletes that
row: its id disappears from the store and every other row is retained
(no soft-delete). In this embedding an error result carries no store, so on
any failure the store is unchanged. -/
theorem unsubmit_spec (uid : String) (talkId eventId : Nat) (now : Nat) (db : Db) :
    (getUserByUid db uid = none →
      unsubmitTalk uid talkId eventId now db = .error ⟨404, "User not found"⟩) ∧
    (∀ user, getUserByUid db uid = some user → getTalk db talkId = none →
      unsubmitTalk uid talkId eventId now db = .error ⟨404, "Talk not found"⟩) ∧
    (∀ user talk, getUserByUid db uid = some user → getTalk db talkId = some talk →
      talk.speakers.any (fun s => s.uid == uid) = false →
      unsubmitTalk uid talkId eventId now db = .error ⟨403, "Forbidden"⟩) ∧
    (∀ user talk, getUserByUid db uid = some user → getTalk db talkId = some talk →
      talk.speakers.any (fun s => s.uid == uid) = true →
      getEventById db eventId = none →
      unsubmitTalk uid talkId eventId now db = .error ⟨404, "Event not found"⟩) ∧
    (∀ user talk event, getUserByUid db uid = some user → getTalk db talkId = some talk →
      talk.speakers.any (fun s => s.uid == uid) = true →
      getEventById db eventId = some event →
      isCfpOpened event.type event.cfpStart event.cfpEnd now = false →
      unsubmitTalk uid talkId eventId now db = .error ⟨403, "CFP is closed"⟩) ∧
    (∀ user talk event, getUserByUid db uid = some user → getTalk db talkId = some talk →
      talk.speakers.any (fun s => s.uid == uid) = true →
      getEventById db eventId = some event →
      isCfpOpened event.type event.cfpStart event.cfpEnd now = true →
      getProposalForEvent db talkId eventId = none →
      unsubmitTalk uid talkId eventId now db = .error ⟨404, "Proposal not found"⟩) ∧
    (∀ user talk event p, getUserByUid db uid = some user → getTalk db talkId = some talk →
      talk.speakers.any (fun s => s.uid == uid) = true →
      getEventById db eventId = some event →
      isCfpOpened event.type event.cfpStart event.cfpEnd now = true →
      getProposalForEvent db talkId eventId = some p →
      unsubmitTalk uid talkId eventId now db = .ok (deleteProposal db p.id) ∧
      (∀ q ∈ (deleteProposal db p.id).proposals, q.id ≠ p.id) ∧
      (∀ q ∈ db.proposals, q.id ≠ p.id → q ∈ (deleteProposal db p.id).proposals)) := by
  refine ⟨?_, ?_, ?_, ?_, ?_, ?_, ?_⟩
  · intro h
    simp [unsubmitTalk, h]
  · intro user hU hT
    simp [unsubmitTalk, hU, hT]
  · intro user talk hU hT hs
    simp [unsubmitTalk, hU, hT, hs]
  · intro user talk hU hT hs hE
    simp [unsubmitTalk, hU, hT, hs, hE]
  · intro user talk event hU hT hs hE hC
    simp [unsubmitTalk, hU, hT, hs, hE, hC]
  · intro user talk event hU hT hs hE hC hP
    simp [unsubmitTalk, hU, hT, hs, hE, hC, hP]
  · intro user talk event p hU hT hs hE hC hP
    refine ⟨by simp [unsubmitTalk, hU, hT, hs, hE, hC, hP], ?_, ?_⟩
    · intro q hq
      have := List.of_mem_filter hq
      simpa using this
    · intro q hq hne
      exact List.mem_filter.mpr ⟨hq, by simp [hne]⟩

/-- Witness for C6: a missing pair row fails 404, and the existing proposal 50
of `wDbOne` is deleted outright. -/
theorem unsubmit_spec_witness :
    unsubmitTalk "uid1" 10 20 0 wDb = .error ⟨404, "Proposal not found"⟩ ∧
    unsubmitTalk "uid1" 10 22 0 wDbOne = .ok (deleteProposal wDbOne 50) := by
  constructor
  · exact (unsubmit_spec "uid1" 10 20 0 wDb).2.2.2.2.2.1 wUser wTalk wEvent
      rfl rfl rfl rfl rfl rfl
  · exact ((unsubmit_spec "uid1" 10 22 0 wDbOne).2.2.2.2.2.2 wUser wTalk wEventCap1 wRow50
      rfl rfl rfl rfl rfl rfl).1

/-- C7: message update and delete fail 404 "Message not found" — not 403
Forbidden — whenever no message with the given id belongs to the requesting
user for the proposal: both when the message does not exist at all and when it
exists but was authored by a different user. -/
theorem message_mutation_not_found (msgs : List Message)
    (messageId userId proposalId : Nat) (text : String)
    (h : ∀ m ∈ msgs, ¬(m.id = messageId ∧ m.userId = userId ∧ m.proposalId = proposalId)) :
    updateMessage msgs messageId userId proposalId text =
      .error ⟨404, "Message not found"⟩ ∧
    deleteMessage msgs messageId userId proposalId =
      .error ⟨404, "Message not found"⟩ := by
  have hfind : findMessage msgs messageId userId proposalId = none := by
    rw [findMessage, List.find?_eq_none]
    intro m hm hc
    simp only [Bool.and_eq_true, beq_iff_eq] at hc
    exact h m hm ⟨hc.1.1, hc.1.2, hc.2⟩
  constructor <;> simp [updateMessage, deleteMessage, hfind]

/-- Witness for C7: message 7 of `wMsgs` belongs to user 2, so user 1 gets 404
on update and delete; a non-existent message 8 gets 404 as well. -/
theorem message_mutation_not_found_witness :
    (updateMessage wMsgs 7 1 3 "x" = .error ⟨404, "Message not found"⟩ ∧
      deleteMessage wMsgs 7 1 3 = .error ⟨404, "Message not found"⟩) ∧
    (updateMessage wMsgs 8 2 3 "x" = .error ⟨404, "Message not found"⟩ ∧
      deleteMessage wMsgs 8 2 3 = .error ⟨404, "Message not found"⟩) := by
  constructor
  · exact message_mutation_not_found wMsgs 7 1 3 "x" (by decide)
  · exact message_mutation_not_found wMsgs 8 2 3 "x" (by decide)

/-- Deleting every row of a rating key makes its lookup come back empty. -/
theorem findRating_filter_none (l : List Rating) (u p : Nat) :
    (l.filter (fun r => !(r.userId == u && r.proposalId == p))).find?
      (fun r => r.userId == u && r.proposalId == p) = none := by
  rw [List.find?_eq_none]
  intro x hx
  have hxf := List.of_mem_filter hx
  simp only [Bool.not_eq_true'] at hxf
  simp [hxf]

/-- After an in-place upsert of a present key, its lookup finds the new
values. -/
theorem findRating_map_upsert (l : List Rating) (u p : Nat) (rv : Option Int)
    (fv : Option RatingFeeling)
    (h : l.any (fun r => r.userId == u && r.proposalId == p) = true) :
    ∃ row, (l.map (fun r => if r.userId == u && r.proposalId == p then
        { r with rating := rv, feeling := fv } else r)).find?
        (fun r => r.userId == u && r.proposalId == p) = some row ∧
      row.rating = rv ∧ row.feeling = fv := by
  induction l with
  | nil => simp at h
  | cons a l ih =>
    cases ha : (a.userId == u && a.proposalId == p) with
    | true =>
      refine ⟨{ a with rating := rv, feeling := fv }, ?_, rfl, rfl⟩
      have hpred : ((fun r => r.userId == u && r.proposalId == p)
          ({ a with rating := rv, feeling := fv } : Rating)) = true := ha
      simp only [List.map_cons, ha, if_true]
      exact List.find?_cons_of_pos _ hpred
    | false =>
      have h' : l.any (fun r => r.userId == u && r.proposalId == p) = true := by
        simpa [List.any_cons, ha] using h
      obtain ⟨row, hrow, hr1, hr2⟩ := ih h'
      refine ⟨row, ?_, hr1, hr2⟩
      simp only [List.map_cons, ha, if_false]
      rw [List.find?_cons_of_neg _ (by simp [ha])]
      exact hrow

/-- Inserting a fresh rating row for an absent key makes its lookup find it. -/
theorem findRating_append_new (l : List Rating) (u p : Nat) (rv : Option Int)
    (fv : Option RatingFeeling)
    (h : l.any (fun r => r.userId == u && r.proposalId == p) = false) :
    (l ++ [(⟨u, p, rv, fv⟩ : Rating)]).find? (fun r => r.userId == u && r.proposalId == p) =
      some (⟨u, p, rv, fv⟩ : Rating) := by
  rw [List.find?_append]
  have hn : l.find? (fun r => r.userId == u && r.proposalId == p) = none := by
    rw [List.find?_eq_none]
    intro x hx hc
    have : l.any (fun r => r.userId == u && r.proposalId == p) = true :=
      List.any_eq_true.mpr ⟨x, hx, hc⟩
    rw [h] at this
    exact absurd this (by simp)
  simp [hn]

/-- Evaluation of `rate` with both values null: the rows of the key are deleted. -/
theorem rate_none_none (l : List Rating) (p u : Nat) :
    rate l p u none none =
      .ok (l.filter (fun r => !(r.userId == u && r.proposalId == p))) := by
  simp [rate, ratingValid]

/-- Evaluation of `rate 3 NEUTRAL` when the key is present: in-place upsert. -/
theorem rate_some_upsert (l : List Rating) (p u : Nat)
    (han : l.any (fun r => r.userId == u && r.proposalId == p) = true) :
    rate l p u (some 3) (some RatingFeeling.NEUTRAL) =
      .ok (l.map (fun r => if r.userId == u && r.proposalId == p then
        { r with rating := some 3, feeling := some RatingFeeling.NEUTRAL } else r)) := by
  have hval : ratingValid (some (3 : Int)) = true := rfl
  simp [rate, hval, han]

/-- Evaluation of `rate 3 NEUTRAL` when the key is absent: insert. -/
theorem rate_some_insert (l : List Rating) (p u : Nat)
    (han : l.any (fun r => r.userId == u && r.proposalId == p) = false) :
    rate l p u (some 3) (some RatingFeeling.NEUTRAL) =
      .ok (l ++ [⟨u, p, some 3, some RatingFeeling.NEUTRAL⟩]) := by
  have hval : ratingValid (some (3 : Int)) = true := rfl
  simp [rate, hval, han]

/-- C8: rating round-trip: `rate(p, u, 3, NEUTRAL)` succeeds and a read-back
of the (u, p) row yields rating 3 and feeling NEUTRAL; a subsequent
`rate(p, u, null, null)` succeeds and deletes the row, so the read-back
returns absence — no row storing nulls remains. -/
theorem rate_round_trip (ratings : List Rating) (p u : Nat) :
    ∃ rs1, rate ratings p u (some 3) (some RatingFeeling.NEUTRAL) = .ok rs1 ∧
      (∃ row, findRating rs1 u p = some row ∧
        row.rating = some 3 ∧ row.feeling = some RatingFeeling.NEUTRAL) ∧
      ∃ rs2, rate rs1 p u none none = .ok rs2 ∧ findRating rs2 u p = none := by
  cases han : ratings.any (fun r => r.userId == u && r.proposalId == p) with
  | true =>
    obtain ⟨row, hrow, hr1, hr2⟩ :=
      findRating_map_upsert ratings u p (some 3) (some RatingFeeling.NEUTRAL) han
    exact ⟨_, rate_some_upsert ratings p u han, ⟨row, hrow, hr1, hr2⟩,
      _, rate_none_none _ p u, findRating_filter_none _ u p⟩
  | false =>
    exact ⟨_, rate_some_insert ratings p u han,
      ⟨⟨u, p, some 3, some RatingFeeling.NEUTRAL⟩,
        findRating_append_new ratings u p (some 3) (some RatingFeeling.NEUTRAL) han, rfl, rfl⟩,
      _, rate_none_none _ p u, findRating_filter_none _ u p⟩

/-- C9: the organizer gate for event-scoped mutation endpoints applies its
rules in order: no identity → Unauthenticated (401); unresolvable identity →
UserNotFound (404); a resolvable user who is neither the direct owner of the event
nor a member of its organization → Forbidden (403); a member whose role is the
read-only REVIEWER role → Forbidden (403) on mutations; and the owner of the event
is authorized, responding 204 on a mutation. -/
theorem organizer_gate_order (identity : Option String) (eventId : Nat) (db : OrgDb) :
    (checkOrganizerAccess none eventId true db = .unauthenticated ∧
      verdictStatus .unauthenticated = 401) ∧
    (∀ uid, identity = some uid →
      db.users.find? (fun x => x.uid == uid) = none →
      checkOrganizerAccess identity eventId true db = .userNotFound ∧
      verdictStatus .userNotFound = 404) ∧
    (∀ uid user event, identity = some uid →
      db.users.find? (fun x => x.uid == uid) = some user →
      db.events.find? (fun e => e.id == eventId) = some event →
      event.ownerId ≠ some user.id →
      (∀ oid, event.organizationId = some oid →
        db.members.find? (fun m => m.userId == user.id && m.organizationId == oid) = none) →
      checkOrganizerAccess identity eventId true db = .forbidden ∧
      verdictStatus .forbidden = 403) ∧
    (∀ uid user event oid member, identity = some uid →
      db.users.find? (fun x => x.uid == uid) = some user →
      db.events.find? (fun e => e.id == eventId) = some event →
      event.ownerId ≠ some user.id →
      event.organizationId = some oid →
      db.members.find? (fun m => m.userId == user.id && m.organizationId == oid) =
        some member →
      member.role = .REVIEWER →
      checkOrganizerAccess identity eventId true db = .forbidden ∧
      verdictStatus .forbidden = 403) ∧
    (∀ uid user event, identity = some uid →
      db.users.find? (fun x => x.uid == uid) = some user →
      db.events.find? (fun e => e.id == eventId) = some event →
      event.ownerId = some user.id →
      checkOrganizerAccess identity eventId true db = .authorized ∧
      verdictStatus .authorized = 204) := by
  refine ⟨⟨rfl, rfl⟩, ?_, ?_, ?_, ?_⟩
  · intro uid hid hU
    subst hid
    exact ⟨by simp [checkOrganizerAccess, hU], rfl⟩
  · intro uid user event hid hU hE hown hmem
    subst hid
    have hb : (event.ownerId == some user.id) = false := beq_eq_false_iff_ne.mpr hown
    refine ⟨?_, rfl⟩
    cases hoid : event.organizationId with
    | none => simp [checkOrganizerAccess, hU, hE, hb, hoid]
    | some oid => simp [checkOrganizerAccess, hU, hE, hb, hoid, hmem oid hoid]
  · intro uid user event oid member hid hU hE hown hoid hm hrole
    subst hid
    have hb : (event.ownerId == some user.id) = false := beq_eq_false_iff_ne.mpr hown
    exact ⟨by simp [checkOrganizerAccess, hU, hE, hb, hoid, hm, hrole], rfl⟩
  · intro uid user event hid hU hE hown
    subst hid
    exact ⟨by simp [checkOrganizerAccess, hU, hE, hown], rfl⟩

/-- Witness for C9: each gate outcome realised on the concrete store
`wOrgDb`. -/
theorem organizer_gate_order_witness :
    (checkOrganizerAccess none 5 true wOrgDb = .unauthenticated ∧
      verdictStatus .unauthenticated = 401) ∧
    (checkOrganizerAccess (some "ghost") 5 true wOrgDb = .userNotFound ∧
      verdictStatus .userNotFound = 404) ∧
    (checkOrganizerAccess (some "outsider") 5 true wOrgDb = .forbidden ∧
      verdictStatus .forbidden = 403) ∧
    (checkOrganizerAccess (some "reviewer") 5 true wOrgDb = .forbidden ∧
      verdictStatus .forbidden = 403) ∧
    (checkOrganizerAccess (some "owner") 5 true wOrgDb = .authorized ∧
      verdictStatus .authorized = 204) := by
  refine ⟨(organizer_gate_order none 5 wOrgDb).1, ?_, ?_, ?_, ?_⟩
  · exact (organizer_gate_order (some "ghost") 5 wOrgDb).2.1 "ghost" rfl rfl
  · exact (organizer_gate_order (some "outsider") 5 wOrgDb).2.2.1 "outsider"
      ⟨3, "outsider"⟩ ⟨5, some 1, some 9⟩ rfl rfl rfl (by decide)
      (by intro oid hoid
          have h9 : 9 = oid := Option.some.inj hoid
          subst h9
          rfl)
  · exact (organizer_gate_order (some "reviewer") 5 wOrgDb).2.2.2.1 "reviewer"
      ⟨2, "reviewer"⟩ ⟨5, some 1, some 9⟩ 9 ⟨2, 9, .REVIEWER⟩
      rfl rfl rfl (by decide) rfl rfl rfl
  · exact (organizer_gate_order (some "owner") 5 wOrgDb).2.2.2.2 "owner"
      ⟨1, "owner"⟩ ⟨5, some 1, some 9⟩ rfl rfl rfl rfl

end ConferenceHall
